import Mathlib

/-!
# Verification of the image-drive ingestion and retrieval pipeline

Shallow embedding of the core of the repository
STAT7008_Programming_Project_Topic_3: the label canonicalizer
(app/services/autotag.py), the persistent FAISS wrapper
(app/faiss_store.py), the upload deduplication flow
(app/api/uploads.py), the rebuild tooling
(scripts/backfill_and_reindex.py, scripts/rebuild_faiss.py) and the
similar-images endpoint (app/api/images.py).

Machine floats of the source are modelled by rationals; byte strings
and hashes are modelled by Lean strings.
-/

namespace ImageDrive

/-! ## Auto-tagger label canonicalization (app/services/autotag.py) -/

/-- Canonical category vocabulary CATEGORY_CANON (singular + "others"). -/
def CATEGORY_CANON : List String :=
  ["cat", "dog", "elephant", "flower", "forest",
   "fruit", "human", "landscape", "receipt", "sea", "street",
   "others"]

/-- Alias table ALIASES of the source: plurals and synonyms mapped to their
canonical label, together with the explicit identity entries. -/
def ALIASES : List (String × String) :=
  [("cat", "cat"), ("dog", "dog"), ("elephant", "elephant"), ("flower", "flower"),
   ("forest", "forest"), ("fruit", "fruit"), ("human", "human"), ("landscape", "landscape"),
   ("receipt", "receipt"), ("sea", "sea"), ("street", "street"), ("others", "others"),
   ("cats", "cat"), ("dogs", "dog"), ("elephants", "elephant"), ("flowers", "flower"),
   ("forests", "forest"), ("fruits", "fruit"), ("humans", "human"), ("landscapes", "landscape"),
   ("receipts", "receipt"), ("seas", "sea"), ("streets", "street"),
   ("screenshot", "others"), ("screenshots", "others"),
   ("people", "human"), ("person", "human"), ("documents", "receipt"), ("doc", "receipt")]

/-- Model of Python str.strip on a character list: drop whitespace at both ends. -/
def stripChars (l : List Char) : List Char :=
  ((l.dropWhile Char.isWhitespace).reverse.dropWhile Char.isWhitespace).reverse

/-- Model of Python str.strip on a string. -/
def strip (s : String) : String := ⟨stripChars s.data⟩

/-- Normalization step of canonicalize: the source expression
(label or "").strip().lower().replace("_", " "). -/
def normalizeLabel (label : String) : String :=
  ⟨(stripChars label.data).map (fun c =>
      let d := c.toLower
      if d = '_' then ' ' else d)⟩

/-- Function canonicalize(label): the canonical singular label or "others",
or none when the label cannot be mapped. -/
def canonicalize (label : String) : Option String :=
  let s := normalizeLabel label
  if s = "" then none
  else if s ∈ CATEGORY_CANON then some s
  else (ALIASES.find? (fun p => p.1 = s)).map (fun p => p.2)

/-- Display-only pluralization table PLURAL_FOR (not used for storage). -/
def PLURAL_FOR : List (String × String) :=
  [("cat", "cats"), ("dog", "dogs"), ("elephant", "elephants"), ("flower", "flowers"),
   ("forest", "forests"), ("fruit", "fruits"), ("human", "humans"),
   ("landscape", "landscapes"), ("receipt", "receipts"), ("sea", "seas"),
   ("street", "streets"), ("others", "others")]

/-- Function to-output-name of the source: optionally pluralize for display
while keeping the internal canonical name stable. -/
def toOutputName (canon : String) (preferPlural : Bool) : String :=
  if !preferPlural then canon
  else (((PLURAL_FOR.find? (fun p => p.1 = canon)).map (fun p => p.2)).getD canon)

/-! ## Stable descending sort

Model of Python sorted(..., key=value, reverse=True): a stable sort that
places a before b exactly when the score of a is at least the score of b.
Mathlib insertionSort with this relation has the same stable semantics. -/

/-- Relation ordering score-carrying pairs by non-increasing score. -/
def scoreGE {α : Type} (a b : α × ℚ) : Prop := b.2 ≤ a.2

instance {α : Type} : DecidableRel (@scoreGE α) :=
  fun a b => inferInstanceAs (Decidable (b.2 ≤ a.2))

instance {α : Type} : IsTotal (α × ℚ) scoreGE :=
  ⟨fun a b => le_total b.2 a.2⟩

instance {α : Type} : IsTrans (α × ℚ) scoreGE :=
  ⟨fun _ _ _ h1 h2 => le_trans h2 h1⟩

/-- Sort a scored list by descending score (stable). -/
def sortByScoreDesc {α : Type} (l : List (α × ℚ)) : List (α × ℚ) :=
  l.insertionSort scoreGE

/-! ## Auto-tagger prediction (predict-labels in app/services/autotag.py)

The call to score-image goes through the external embedding provider, so
prediction is embedded as a function of the score map it produces
(an association list, keys canonical). -/

/-- Result record of the tagger (dataclass TaggingResult). -/
structure TaggingResult where
  primary : String
  labels : List String
  scores : List (String × ℚ)
deriving DecidableEq

/-- Body of predict-labels after the score map has been computed: order the
scores descending, take the arg-max as primary, keep labels at or above the
threshold (falling back to the top-1 label), truncate to max 1 top-k, and
make sure the primary label is present. Returns none when the score map is
empty (the source raises RuntimeError there). -/
def predictLabels (scores : List (String × ℚ)) (topK : Int) (threshold : ℚ)
    (preferPlural : Bool) : Option TaggingResult :=
  match sortByScoreDesc scores with
  | [] => none
  | o0 :: rest =>
    let ordered := o0 :: rest
    let primaryCanon := o0.1
    let keep0 := ordered.filter (fun kv => decide (threshold ≤ kv.2))
    let keep1 := if keep0 = [] then [o0] else keep0
    let keep := keep1.take (max 1 topK).toNat
    let labelsCanon0 := keep.map (fun kv => kv.1)
    let labelsCanon :=
      if primaryCanon ∈ labelsCanon0 then labelsCanon0 else primaryCanon :: labelsCanon0
    some { primary := toOutputName primaryCanon preferPlural,
           labels := labelsCanon.map (fun l => toOutputName l preferPlural),
           scores := scores }

/-! ## Persistent FAISS wrapper (app/faiss_store.py)

The index structure IndexIDMap2(IndexFlatIP(dim)) is modelled as the list
of its (id, vector) entries; the on-disk artifact as an optional such
list. The field idmap models the attribute underscore-idmap; the field
indexAttr models the attribute named index that the method load assigns
to (and which nothing else reads). -/

/-- Embedding vectors, machine float32 modelled by rationals. -/
abbrev Vec := List ℚ

/-- Inner product of two vectors (the FlatIP metric). -/
def dot (u v : Vec) : ℚ := (List.zipWith (fun a b => a * b) u v).sum

-- Failure results of methods that raise are embedded with Except.
deriving instance DecidableEq for Except

/-- State of a FaissStore object together with its on-disk artifact. -/
structure FaissState where
  dim : Nat
  file : Option (List (Int × Vec))
  idmap : Option (List (Int × Vec))
  indexAttr : Option (List (Int × Vec))
deriving DecidableEq

namespace FaissState

/-- Constructor of FaissStore: records the dimension and runs
load-if-exists, which reads the artifact when present and otherwise
creates an empty IndexIDMap2 over a fresh base index. -/
def init (dim : Nat) (file : Option (List (Int × Vec))) : FaissState :=
  match file with
  | some l => { dim := dim, file := some l, idmap := some l, indexAttr := none }
  | none => { dim := dim, file := none, idmap := some [], indexAttr := none }

/-- Method save: write the in-memory index to the artifact path; a missing
in-memory index makes it a no-op. -/
def save (st : FaissState) : FaissState :=
  match st.idmap with
  | none => st
  | some l => { st with file := some l }

/-- Method load as written in the source: when the artifact exists it is
read and assigned to the attribute named index — not to underscore-idmap,
which every other method uses; when the artifact is missing nothing
happens. -/
def load (st : FaissState) : FaissState :=
  match st.file with
  | some l => { st with indexAttr := some l }
  | none => st

/-- Property ntotal: number of entries of the in-memory index (0 if absent). -/
def ntotal (st : FaissState) : Nat := (st.idmap.getD []).length

/-- Method ensure-loaded: lazily create an empty IndexIDMap2. -/
def ensureLoaded (st : FaissState) : FaissState :=
  match st.idmap with
  | none => { st with idmap := some [] }
  | some _ => st

/-- Method add: append the given (id, vector) pairs to the in-memory index
(raising ValueError on a length mismatch) and persist immediately. -/
def add (st : FaissState) (ids : List Int) (vecs : List Vec) :
    Except String FaissState :=
  let st := st.ensureLoaded
  if ids.length ≠ vecs.length then .error "ids and vecs must have same length"
  else
    let st := { st with idmap := some ((st.idmap.getD []) ++ ids.zip vecs) }
    .ok st.save

/-- Score FAISS writes into the slots beyond ntotal when k exceeds the
number of entries; those slots carry the sentinel id -1 and the search
method filters them out regardless of this value. -/
def padScore : ℚ := -(10 ^ 30)

/-- Exact search of IndexFlatIP through IndexIDMap2: score every entry by
inner product with the query, sort descending, return the first k slots,
padding with sentinel id -1 when fewer than k entries exist. -/
def flatIPSearch (entries : List (Int × Vec)) (q : Vec) (k : Nat) :
    List (Int × ℚ) :=
  let sorted := sortByScoreDesc (entries.map (fun e => (e.1, dot q e.2)))
  sorted.take k ++ List.replicate (k - sorted.length) (-1, padScore)

/-- Method search: empty list on an empty index, otherwise the underlying
top-k with the sentinel-id slots filtered out. -/
def search (st : FaissState) (q : Vec) (k : Nat) : List (Int × ℚ) :=
  let st := st.ensureLoaded
  if st.ntotal = 0 then []
  else (flatIPSearch (st.idmap.getD []) q k).filter (fun p => decide (p.1 ≠ -1))

end FaissState

/-! ## Full rebuild (scripts/backfill_and_reindex.py, rebuild section)

The script deletes the existing index file, constructs a fresh FaissStore
at that path (which therefore starts empty) and adds every (image-id,
vector) row read from the embedding table. The old artifact contents are
passed here only to show they are discarded. -/

/-- Rebuild section of the backfill script. Returns none when the
embedding table is empty (the script aborts), otherwise the result of
adding all rows to a freshly constructed store. -/
def backfillRebuild (_oldFile : Option (List (Int × Vec)))
    (rows : List (Int × Vec)) : Option (Except String FaissState) :=
  match rows with
  | [] => none
  | r0 :: _ =>
    let st0 := FaissState.init r0.2.length none
    some (st0.add (rows.map (fun r => r.1)) (rows.map (fun r => r.2)))

/-! ## Upload deduplication (app/api/uploads.py, route upload)

One uploaded file is reduced to its sha256 digest (same bytes, same
digest). The state carries the image table rows that matter here
(id, sha256, stored path), the set of paths present on disk, and the next
id the database would assign. The result records the number of
os.replace moves into the content store. -/

/-- Hash-sharded destination path data/uploads/aa/bb/sha of a digest. -/
def dstPathOf (sha : String) : String :=
  "data/uploads/" ++ (⟨sha.data.take 2⟩ : String).append
    ("/" ++ (⟨(sha.data.drop 2).take 2⟩ : String) ++ "/" ++ sha)

/-- Database and disk state the upload route manipulates. -/
structure UploadState where
  db : List (Nat × String × String)
  disk : List String
  nextId : Nat
deriving DecidableEq

/-- Per-file outcome of the upload route. -/
structure UploadResult where
  imageId : Nat
  duplicate : Bool
  moves : Nat
deriving DecidableEq

/-- One iteration of the upload loop for a file with digest sha: existing
record with its file on disk short-circuits as a duplicate with no move;
an existing record whose file is missing heals the path with one move; a
fresh digest moves the file into place and inserts a new row. -/
def uploadOne (st : UploadState) (sha : String) : UploadResult × UploadState :=
  let dst := dstPathOf sha
  match st.db.find? (fun r => r.2.1 = sha) with
  | some r =>
    if r.2.2 ∈ st.disk then
      ({ imageId := r.1, duplicate := true, moves := 0 }, st)
    else
      ({ imageId := r.1, duplicate := false, moves := 1 },
       { st with
          db := st.db.map (fun r2 => if r2.1 = r.1 then (r2.1, r2.2.1, dst) else r2),
          disk := dst :: st.disk })
  | none =>
      ({ imageId := st.nextId, duplicate := false, moves := 1 },
       { db := (st.nextId, sha, dst) :: st.db,
         disk := dst :: st.disk,
         nextId := st.nextId + 1 })

/-! ## Similar-images endpoint (app/api/images.py, similar-by-id)

The image table is embedded as its id and category columns; the seed
vector embedding is an input (the embedding provider is external). -/

/-- Image table restricted to the columns the endpoint reads. -/
abbrev ImageDb := List (Int × Option String)

/-- Primary-key lookup of the category column. -/
def dbFind (db : ImageDb) (i : Int) : Option (Option String) :=
  (db.find? (fun r => r.1 = i)).map (fun r => r.2)

/-- Source expression (x.category or ""): null coerced to the empty string. -/
def catOrEmpty (c : Option String) : String := c.getD ""

/-- Helper to-0-1: map a cosine score from [-1, 1] to [0, 1], clamped. -/
def to01 (s : ℚ) : ℚ :=
  let v := (s + 1) / 2
  if v < 0 then 0 else if v > 1 then 1 else v

/-- Clamp of the query parameter: k = max(1, min(200, k)). -/
def clampK (kRaw : Int) : Nat := (max 1 (min 200 kRaw)).toNat

/-- Observable outcome of the endpoint: the candidate count requested from
the index and the items list of (id, remapped score). -/
structure SimilarOut where
  requested : Nat
  items : List (Int × ℚ)
deriving DecidableEq

/-- Route similar-by-id on its success path: resolve the seed row (none
models the 404), oversample max(k*5, k+32) candidates from the index,
drop the seed id unless include-self, optionally keep only candidates
whose category column (null coerced to "") equals the stripped seed
category, truncate to k, remap scores to [0, 1], and with include-self
prepend the seed with score 1 while dropping it from the tail. -/
def similarById (db : ImageDb) (fs : FaissState) (q : Vec) (imageId : Int)
    (kRaw : Int) (includeSelf sameCategory : Bool) : Option SimilarOut :=
  match dbFind db imageId with
  | none => none
  | some seedCatCol =>
    let k := clampK kRaw
    let seedCat := strip (catOrEmpty seedCatCol)
    let topN := max (k * 5) (k + 32)
    let rawHits := fs.search q topN
    let cand1 := if includeSelf then rawHits
                 else rawHits.filter (fun p => decide (p.1 ≠ imageId))
    let byId := fun i => match dbFind db i with
      | some c => catOrEmpty c
      | none => ""
    let cand2 := if sameCategory then cand1.filter (fun p => decide (byId p.1 = seedCat))
                 else cand1
    let cand3 := cand2.take k
    let items0 := cand3.map (fun p => (p.1, to01 p.2))
    let items := if includeSelf then
        (imageId, (1 : ℚ)) :: items0.filter (fun p => decide (p.1 ≠ imageId))
      else items0
    some { requested := topN, items := items }

/-! ## General lemmas about the descending sort -/

theorem sortByScoreDesc_perm {α : Type} (l : List (α × ℚ)) :
    List.Perm (sortByScoreDesc l) l :=
  List.perm_insertionSort scoreGE l

theorem sortByScoreDesc_sorted {α : Type} (l : List (α × ℚ)) :
    List.Pairwise scoreGE (sortByScoreDesc l) :=
  List.sorted_insertionSort scoreGE l

theorem sortByScoreDesc_head_max {α : Type} {l : List (α × ℚ)} {o0 : α × ℚ}
    {rest : List (α × ℚ)} (hsort : sortByScoreDesc l = o0 :: rest) :
    o0 ∈ l ∧ ∀ kv ∈ l, kv.2 ≤ o0.2 := by
  have hperm := sortByScoreDesc_perm l
  rw [hsort] at hperm
  constructor
  · exact hperm.mem_iff.mp (List.mem_cons_self o0 rest)
  · intro kv hkv
    have hkv2 : kv ∈ o0 :: rest := hperm.mem_iff.mpr hkv
    rcases List.mem_cons.mp hkv2 with h | h
    · exact h ▸ le_refl _
    · have hpw := sortByScoreDesc_sorted l
      rw [hsort] at hpw
      exact (List.pairwise_cons.mp hpw).1 kv h

/-! ## Facts about the canonical vocabulary, checked by evaluation -/

theorem canonicalize_of_mem_canon : ∀ c ∈ CATEGORY_CANON, canonicalize c = some c := by
  decide

theorem aliases_snd_mem_canon : ∀ p ∈ ALIASES, p.2 ∈ CATEGORY_CANON := by
  decide

/-- C8: canonicalize is the identity on every label of the canonical set,
maps every alias of the alias table to its canonical form, returns none on
every label whose normal form is neither canonical nor an alias key, and
is idempotent: canonicalizing any non-none output returns it unchanged. -/
theorem canonicalize_spec :
    (∀ c ∈ CATEGORY_CANON, canonicalize c = some c) ∧
    (∀ p ∈ ALIASES, canonicalize p.1 = some p.2) ∧
    (∀ label, normalizeLabel label ∉ CATEGORY_CANON →
      (∀ p ∈ ALIASES, p.1 ≠ normalizeLabel label) → canonicalize label = none) ∧
    (∀ label c, canonicalize label = some c → canonicalize c = some c) := by
  refine ⟨canonicalize_of_mem_canon, by decide, ?_, ?_⟩
  · intro label h1 h2
    unfold canonicalize
    by_cases hs : normalizeLabel label = ""
    · simp [hs]
    · simp only [hs, if_false, h1, if_neg]
      rw [List.find?_eq_none.mpr]
      · simp
      · intro p hp
        simpa using (h2 p hp)
  · intro label c hc
    unfold canonicalize at hc
    by_cases hs : normalizeLabel label = ""
    · simp [hs] at hc
    · by_cases hmem : normalizeLabel label ∈ CATEGORY_CANON
      · simp only [hs, if_false, hmem, if_true] at hc
        have : normalizeLabel label = c := by simpa using hc
        exact canonicalize_of_mem_canon c (this ▸ hmem)
      · simp only [hs, if_false, hmem, if_neg] at hc
        rcases Option.map_eq_some'.mp hc with ⟨p, hfind, hpc⟩
        have hpmem : p ∈ ALIASES := List.mem_of_find?_eq_some hfind
        exact canonicalize_of_mem_canon c (hpc ▸ aliases_snd_mem_canon p hpmem)

/-- Witness for C8: concrete instances of the unknown-label case and the
alias case of canonicalize-spec. -/
theorem canonicalize_spec_witness :
    canonicalize "zebra" = none ∧ canonicalize "cats" = some "cat" :=
  ⟨canonicalize_spec.2.2.1 "zebra" (by decide) (by decide),
   canonicalize_spec.2.1 ("cats", "cat") (by decide)⟩

/-- C9: on every non-empty score map, predict-labels (with the default
non-plural output) returns a primary label carried by a maximal score, a
never-empty labels list, the top-1 label alone when nothing clears the
threshold, and every label at or above the threshold whenever at most
max 1 top-k labels clear it. -/
theorem predictLabels_spec (scores : List (String × ℚ)) (topK : Int)
    (threshold : ℚ) (res : TaggingResult)
    (h : predictLabels scores topK threshold false = some res) :
    (∃ kv ∈ scores, kv.1 = res.primary ∧ ∀ kv2 ∈ scores, kv2.2 ≤ kv.2) ∧
    res.labels ≠ [] ∧
    ((∀ kv ∈ scores, kv.2 < threshold) → res.labels = [res.primary]) ∧
    (∀ kv ∈ scores, threshold ≤ kv.2 →
      (scores.filter (fun kv2 => decide (threshold ≤ kv2.2))).length ≤ (max 1 topK).toNat →
      kv.1 ∈ res.labels) := by
  unfold predictLabels at h
  cases hsort : sortByScoreDesc scores with
  | nil => rw [hsort] at h; exact absurd h (by simp)
  | cons o0 rest =>
    rw [hsort] at h
    simp only [toOutputName, Bool.not_false, if_true, Option.some.injEq] at h
    obtain ⟨hmax0, hmax⟩ := sortByScoreDesc_head_max hsort
    have hperm := sortByScoreDesc_perm scores
    rw [hsort] at hperm
    set keep0 := (o0 :: rest).filter (fun kv => decide (threshold ≤ kv.2)) with hkeep0
    set keep1 := if keep0 = [] then [o0] else keep0 with hkeep1
    set keep := keep1.take (max 1 topK).toNat with hkeep
    set labels0 := keep.map (fun kv => kv.1) with hlabels0
    have hres : res.primary = o0.1 ∧
        res.labels = (if o0.1 ∈ labels0 then labels0 else o0.1 :: labels0) := by
      cases h; constructor <;> simp [List.map_id]
    obtain ⟨hprim, hlab⟩ := hres
    have hkeep1_ne : keep1 ≠ [] := by
      rw [hkeep1]; split
      · simp
      · assumption
    have htakePos : 1 ≤ (max 1 topK).toNat := by
      have : (1 : Int) ≤ max 1 topK := le_max_left 1 topK
      omega
    have hkeep_ne : keep ≠ [] := by
      rw [hkeep]
      cases hk1 : keep1 with
      | nil => exact absurd hk1 hkeep1_ne
      | cons a l =>
        cases hn : (max 1 topK).toNat with
        | zero => omega
        | succ m => simp
    refine ⟨⟨o0, hmax0, hprim.symm, hmax⟩, ?_, ?_, ?_⟩
    · rw [hlab]
      split
      · simpa [hlabels0] using hkeep_ne
      · simp
    · intro hall
      have hkeep0_nil : keep0 = [] := by
        rw [hkeep0, List.filter_eq_nil_iff]
        intro kv hkv
        simp only [decide_eq_true_eq, not_le]
        exact hall kv (hperm.mem_iff.mp hkv)
      have hk1 : keep1 = [o0] := by rw [hkeep1, if_pos hkeep0_nil]
      have hk : keep = [o0] := by
        rw [hkeep, hk1]
        cases hn : (max 1 topK).toNat with
        | zero => omega
        | succ m => simp
      have hl0 : labels0 = [o0.1] := by rw [hlabels0, hk]; simp
      rw [hlab, hl0, hprim]
      simp
    · intro kv hkv hθ hcount
      have hkvmem : kv ∈ keep0 := by
        rw [hkeep0]
        exact List.mem_filter.mpr ⟨hperm.mem_iff.mpr hkv, by simpa using hθ⟩
      have hkeep0_ne : keep0 ≠ [] := by
        intro hnil; rw [hnil] at hkvmem; exact absurd hkvmem (by simp)
      have hk1 : keep1 = keep0 := by rw [hkeep1, if_neg hkeep0_ne]
      have hlen : keep0.length ≤ (max 1 topK).toNat := by
        have : keep0.length = (scores.filter (fun kv2 => decide (threshold ≤ kv2.2))).length :=
          (hperm.filter _).length_eq
        omega
      have hk : keep = keep0 := by
        rw [hkeep, hk1, List.take_of_length_le hlen]
      have hmem0 : kv.1 ∈ labels0 := by
        rw [hlabels0, hk]
        exact List.mem_map.mpr ⟨kv, hkvmem, rfl⟩
      rw [hlab]
      split
      · exact hmem0
      · exact List.mem_cons_of_mem _ hmem0

/-- Witness for C9: predict-labels on a concrete two-entry score map with
threshold 3/10 and top-k 3. -/
theorem predictLabels_spec_witness :
    (∃ kv ∈ [("cat", (1 : ℚ)/2), ("dog", 1/4)], kv.1 = "cat" ∧
      ∀ kv2 ∈ [("cat", (1 : ℚ)/2), ("dog", 1/4)], kv2.2 ≤ kv.2) ∧
    (["cat"] : List String) ≠ [] ∧
    ("cat" ∈ (["cat"] : List String)) := by
  have h := predictLabels_spec [("cat", (1 : ℚ)/2), ("dog", 1/4)] 3 (3/10)
    ⟨"cat", ["cat"], [("cat", (1 : ℚ)/2), ("dog", 1/4)]⟩ (by with_unfolding_all decide)
  exact ⟨h.1, h.2.1, h.2.2.2 ("cat", (1 : ℚ)/2) (by simp)
    (by with_unfolding_all decide) (by with_unfolding_all decide)⟩

/-! ## Lemmas about the FAISS wrapper -/

theorem zip_fst_snd {α β : Type} (l : List (α × β)) :
    (l.map (fun r => r.1)).zip (l.map (fun r => r.2)) = l := by
  rw [List.zip_map']
  simp

theorem ensureLoaded_getD (st : FaissState) :
    (st.ensureLoaded).idmap.getD [] = st.idmap.getD [] := by
  cases h : st.idmap <;> simp [FaissState.ensureLoaded, h]

theorem ensureLoaded_ntotal (st : FaissState) :
    (st.ensureLoaded).ntotal = st.ntotal := by
  unfold FaissState.ntotal
  rw [ensureLoaded_getD]

/-- C7: for every store state, query and k, search returns no sentinel id
-1, its scores are non-increasing from head to tail, and an empty index
yields the empty list. -/
theorem search_spec (st : FaissState) (q : Vec) (k : Nat) :
    (∀ p ∈ st.search q k, p.1 ≠ -1) ∧
    List.Pairwise (fun a b : Int × ℚ => b.2 ≤ a.2) (st.search q k) ∧
    (st.ntotal = 0 → st.search q k = []) := by
  unfold FaissState.search
  by_cases h0 : st.ntotal = 0
  · rw [if_pos]
    · simp
    · rw [ensureLoaded_ntotal]; exact h0
  · rw [if_neg]
    swap
    · rw [ensureLoaded_ntotal]; exact h0
    refine ⟨?_, ?_, fun hc => absurd hc h0⟩
    · intro p hp
      exact of_decide_eq_true (List.mem_filter.mp hp).2
    · unfold FaissState.flatIPSearch
      rw [List.filter_append]
      have hrep : (List.replicate
          (k - (sortByScoreDesc (((st.ensureLoaded).idmap.getD []).map
            (fun e => (e.1, dot q e.2)))).length) ((-1 : Int), FaissState.padScore)).filter
          (fun p => decide (p.1 ≠ -1)) = [] := by
        rw [List.filter_eq_nil_iff]
        intro a ha
        rw [List.eq_of_mem_replicate ha]
        simp
      rw [hrep, List.append_nil]
      have hsub : List.Sublist
          (((sortByScoreDesc (((st.ensureLoaded).idmap.getD []).map
            (fun e => (e.1, dot q e.2)))).take k).filter (fun p => decide (p.1 ≠ -1)))
          (sortByScoreDesc (((st.ensureLoaded).idmap.getD []).map
            (fun e => (e.1, dot q e.2)))) :=
        (List.filter_sublist _).trans (List.take_sublist _ _)
      exact (sortByScoreDesc_sorted _).sublist hsub

/-- Witness for C7: searching a store whose in-memory index is empty. -/
theorem search_spec_witness :
    (⟨8, none, some [], none⟩ : FaissState).search [1] 3 = [] :=
  (search_spec ⟨8, none, some [], none⟩ [1] 3).2.2 (by decide)

/-- C5: every successful add appends exactly the given (id, vector) pairs
after the existing in-memory entries, removing nothing, and the on-disk
artifact equals the new in-memory index when add returns. -/
theorem add_spec (st : FaissState) (ids : List Int) (vecs : List Vec)
    (st2 : FaissState) (h : st.add ids vecs = .ok st2) :
    st2.idmap = some (st.idmap.getD [] ++ ids.zip vecs) ∧
    st2.file = st2.idmap ∧
    st2.ntotal = st.ntotal + ids.length := by
  unfold FaissState.add at h
  split at h
  · exact absurd h (by simp)
  · rename_i hlen
    rw [Except.ok.injEq] at h
    have hzip : (ids.zip vecs).length = ids.length := by
      rw [List.length_zip]
      omega
    subst h
    cases hm : st.idmap with
    | none =>
      refine ⟨?_, ?_, ?_⟩ <;>
        simp [FaissState.save, FaissState.ensureLoaded, FaissState.ntotal, hm, hzip]
    | some l =>
      refine ⟨?_, ?_, ?_⟩ <;>
        simp [FaissState.save, FaissState.ensureLoaded, FaissState.ntotal, hm, hzip]

/-- Witness for C5: a concrete one-vector add onto a one-entry index. -/
theorem add_spec_witness :
    (⟨1, some [(5, [1]), (7, [2])], some [(5, [1]), (7, [2])], none⟩ : FaissState).idmap =
      some ([(5, [1])] ++ [(7 : Int)].zip [[(2 : ℚ)]]) ∧
    (⟨1, some [(5, [1]), (7, [2])], some [(5, [1]), (7, [2])], none⟩ : FaissState).file =
      (⟨1, some [(5, [1]), (7, [2])], some [(5, [1]), (7, [2])], none⟩ : FaissState).idmap ∧
    (⟨1, some [(5, [1]), (7, [2])], some [(5, [1]), (7, [2])], none⟩ : FaissState).ntotal =
      (⟨1, none, some [(5, [1])], none⟩ : FaissState).ntotal + [(7 : Int)].length :=
  add_spec ⟨1, none, some [(5, [1])], none⟩ [7] [[2]]
    ⟨1, some [(5, [1]), (7, [2])], some [(5, [1]), (7, [2])], none⟩
    (by with_unfolding_all decide)

/-- C3 (code bug): with the in-memory index empty and the on-disk artifact
holding the single entry id 1, calling load leaves the in-memory index
empty and a subsequent search returns nothing, although the constructor
path (load-if-exists) over the same artifact finds the entry; the method
load stores the artifact in the attribute named index that nothing reads. -/
theorem load_bug :
    ((⟨1, some [(1, [1])], some [], none⟩ : FaissState).load).idmap = some [] ∧
    ((⟨1, some [(1, [1])], some [], none⟩ : FaissState).load).indexAttr = some [(1, [1])] ∧
    ((⟨1, some [(1, [1])], some [], none⟩ : FaissState).load).search [1] 5 = [] ∧
    (FaissState.init 1 (some [(1, [1])])).search [1] 5 = [(1, 1)] := by
  with_unfolding_all decide

/-- C4: the rebuild path of the backfill script ignores whatever index
file existed, and on a non-empty embedding table produces a store whose
in-memory index and freshly written artifact hold exactly the input rows,
so the entry count equals the number of input pairs. -/
theorem backfillRebuild_spec (oldFile : Option (List (Int × Vec)))
    (rows : List (Int × Vec)) (hne : rows ≠ []) :
    backfillRebuild oldFile rows = backfillRebuild none rows ∧
    ∃ st2 : FaissState, backfillRebuild oldFile rows = some (.ok st2) ∧
      st2.idmap = some rows ∧ st2.file = some rows ∧ st2.ntotal = rows.length := by
  cases rows with
  | nil => exact absurd rfl hne
  | cons r0 rest =>
    refine ⟨rfl, ⟨r0.2.length, some (r0 :: rest), some (r0 :: rest), none⟩, ?_, rfl, rfl, ?_⟩
    · simp [backfillRebuild, FaissState.init, FaissState.add, FaissState.ensureLoaded,
        FaissState.save, zip_fst_snd]
    · simp [FaissState.ntotal]

/-- Witness for C4: rebuilding two rows while an unrelated artifact exists. -/
theorem backfillRebuild_spec_witness :
    backfillRebuild (some [(9, [1])]) [(1, [1]), (2, [0])] =
      backfillRebuild none [(1, [1]), (2, [0])] ∧
    ∃ st2 : FaissState, backfillRebuild (some [(9, [1])]) [(1, [1]), (2, [0])] =
        some (.ok st2) ∧
      st2.idmap = some [(1, [1]), (2, [0])] ∧ st2.file = some [(1, [1]), (2, [0])] ∧
      st2.ntotal = [((1 : Int), [(1 : ℚ)]), (2, [0])].length :=
  backfillRebuild_spec (some [(9, [1])]) [(1, [1]), (2, [0])] (by decide)

/-- C2: starting from any state whose image table has no row for the
digest, the first upload inserts and returns (next id, duplicate false)
with one move into the content store, and the second upload of the same
bytes returns the same id with duplicate true and performs no move. -/
theorem upload_dedup_spec (st : UploadState) (sha : String)
    (hfresh : ∀ r ∈ st.db, r.2.1 ≠ sha) :
    (uploadOne st sha).1.imageId = st.nextId ∧
    (uploadOne st sha).1.duplicate = false ∧
    (uploadOne st sha).1.moves = 1 ∧
    (uploadOne (uploadOne st sha).2 sha).1.imageId = (uploadOne st sha).1.imageId ∧
    (uploadOne (uploadOne st sha).2 sha).1.duplicate = true ∧
    (uploadOne (uploadOne st sha).2 sha).1.moves = 0 := by
  have hnone : st.db.find? (fun r => decide (r.2.1 = sha)) = none := by
    rw [List.find?_eq_none]
    intro r hr
    simpa using hfresh r hr
  have h1 : uploadOne st sha =
      ({ imageId := st.nextId, duplicate := false, moves := 1 },
       { db := (st.nextId, sha, dstPathOf sha) :: st.db,
         disk := dstPathOf sha :: st.disk,
         nextId := st.nextId + 1 }) := by
    unfold uploadOne
    rw [hnone]
  rw [h1]
  have h2 : uploadOne
      ({ db := (st.nextId, sha, dstPathOf sha) :: st.db,
         disk := dstPathOf sha :: st.disk,
         nextId := st.nextId + 1 } : UploadState) sha =
      ({ imageId := st.nextId, duplicate := true, moves := 0 },
       { db := (st.nextId, sha, dstPathOf sha) :: st.db,
         disk := dstPathOf sha :: st.disk,
         nextId := st.nextId + 1 }) := by
    unfold uploadOne
    rw [List.find?_cons_of_pos _ (by simp)]
    simp
  rw [h2]
  exact ⟨rfl, rfl, rfl, rfl, rfl, rfl⟩

/-- Witness for C2: two uploads of the same bytes into an empty store,
starting at next id 7 as in the specification example. -/
theorem upload_dedup_spec_witness :
    (uploadOne ⟨[], [], 7⟩ "ab12cd").1.imageId = 7 ∧
    (uploadOne ⟨[], [], 7⟩ "ab12cd").1.duplicate = false ∧
    (uploadOne ⟨[], [], 7⟩ "ab12cd").1.moves = 1 ∧
    (uploadOne (uploadOne ⟨[], [], 7⟩ "ab12cd").2 "ab12cd").1.imageId =
      (uploadOne ⟨[], [], 7⟩ "ab12cd").1.imageId ∧
    (uploadOne (uploadOne ⟨[], [], 7⟩ "ab12cd").2 "ab12cd").1.duplicate = true ∧
    (uploadOne (uploadOne ⟨[], [], 7⟩ "ab12cd").2 "ab12cd").1.moves = 0 :=
  upload_dedup_spec ⟨[], [], 7⟩ "ab12cd" (by simp)

/-- C6: every category-constrained query (the endpoint variable k is the
clamp max(1, min(200, k-param)) of the request parameter) asks the index
for exactly max(k*5, k+32) candidates, and returns at most k items, each
drawn from that candidate request. -/
theorem similar_oversample_spec (db : ImageDb) (fs : FaissState) (q : Vec)
    (imageId : Int) (kRaw : Int) (out : SimilarOut)
    (h : similarById db fs q imageId kRaw false true = some out) :
    out.requested = max (clampK kRaw * 5) (clampK kRaw + 32) ∧
    out.items.length ≤ clampK kRaw ∧
    ∀ p ∈ out.items, p.1 ∈ (fs.search q out.requested).map (fun r => r.1) := by
  unfold similarById at h
  cases hseed : dbFind db imageId with
  | none => rw [hseed] at h; exact absurd h (by simp)
  | some seedCatCol =>
    rw [hseed] at h
    simp only [Bool.false_eq_true, if_false, if_true, Option.some.injEq] at h
    subst h
    refine ⟨rfl, ?_, ?_⟩
    · simp [List.length_take_le]
    · intro p hp
      simp only [List.mem_map] at hp
      obtain ⟨p2, hp2, rfl⟩ := hp
      have hp3 := List.take_subset _ _ hp2
      have hp4 := List.mem_of_mem_filter hp3
      have hp5 := List.mem_of_mem_filter hp4
      exact List.mem_map.mpr ⟨p2, hp5, rfl⟩

/-- Witness for C6: a concrete category-constrained query with k = 5. -/
theorem similar_oversample_spec_witness :
    (⟨37, [(2, 1)]⟩ : SimilarOut).requested = max (clampK 5 * 5) (clampK 5 + 32) ∧
    (⟨37, [(2, 1)]⟩ : SimilarOut).items.length ≤ clampK 5 ∧
    ∀ p ∈ (⟨37, [(2, 1)]⟩ : SimilarOut).items,
      p.1 ∈ ((FaissState.init 1 (some [(2, [1])])).search [1]
        (⟨37, [(2, 1)]⟩ : SimilarOut).requested).map (fun r => r.1) :=
  similar_oversample_spec [(1, some "cat"), (2, some "cat")]
    (FaissState.init 1 (some [(2, [1])])) [1] 1 5 ⟨37, [(2, 1)]⟩
    (by with_unfolding_all decide)

/-- C1 (counterexample): with the seed category stored as "cat " (trailing
blank) and a candidate stored as "cat", the category-constrained query
returns the candidate although its stored category differs from the
stored category of the seed — the code compares candidates against the
stripped seed category but does not strip the candidate side. -/
theorem sameCategory_counterexample :
    similarById [(1, some "cat "), (2, some "cat")]
        (FaissState.init 1 (some [(2, [1])])) [1] 1 5 false true =
      some ⟨37, [(2, 1)]⟩ ∧
    dbFind [(1, some "cat "), (2, some "cat")] 2 = some (some "cat") ∧
    dbFind [(1, some "cat "), (2, some "cat")] 1 = some (some "cat ") ∧
    ("cat" : String) ≠ "cat " := by
  refine ⟨by with_unfolding_all decide, by decide, by decide, by decide⟩

/-- C1 (amended): under a category-constrained query, every returned item
is either the seed itself (possible only with include-self) or has a
category column that, with null coerced to the empty string, equals the
whitespace-stripped seed category; in particular a seed with stripped
category empty only matches candidates whose category is null or empty. -/
theorem sameCategory_amended (db : ImageDb) (fs : FaissState) (q : Vec)
    (imageId : Int) (kRaw : Int) (includeSelf : Bool)
    (seedCatCol : Option String) (out : SimilarOut)
    (hseed : dbFind db imageId = some seedCatCol)
    (h : similarById db fs q imageId kRaw includeSelf true = some out) :
    ∀ p ∈ out.items, p.1 = imageId ∨
      ∀ c, dbFind db p.1 = some c →
        catOrEmpty c = strip (catOrEmpty seedCatCol) := by
  unfold similarById at h
  rw [hseed] at h
  simp only [if_true, Option.some.injEq] at h
  subst h
  intro p hp
  have hofcand : ∀ p2 : Int × ℚ,
      (decide ((match dbFind db p2.1 with
        | some c => catOrEmpty c
        | none => "") = strip (catOrEmpty seedCatCol)) = true) →
      ∀ c, dbFind db p2.1 = some c →
        catOrEmpty c = strip (catOrEmpty seedCatCol) := by
    intro p2 hdec c hc
    have := of_decide_eq_true hdec
    rw [hc] at this
    exact this
  cases includeSelf with
  | true =>
    simp only [if_true] at hp
    rcases List.mem_cons.mp hp with hph | hpt
    · left
      rw [hph]
    · right
      have hpt2 := List.mem_of_mem_filter hpt
      simp only [List.mem_map] at hpt2
      obtain ⟨p2, hp2, rfl⟩ := hpt2
      have hp3 := List.take_subset _ _ hp2
      exact hofcand p2 (List.mem_filter.mp hp3).2
  | false =>
    simp only [Bool.false_eq_true, if_false] at hp
    right
    simp only [List.mem_map] at hp
    obtain ⟨p2, hp2, rfl⟩ := hp
    have hp3 := List.take_subset _ _ hp2
    exact hofcand p2 (List.mem_filter.mp hp3).2

/-- Witness for C1 (amended): the concrete query of the counterexample,
where the only returned item has category "cat" equal to the stripped
seed category. -/
theorem sameCategory_amended_witness :
    catOrEmpty (some "cat") = strip (catOrEmpty (some "cat ")) := by
  have h := sameCategory_amended [(1, some "cat "), (2, some "cat")]
    (FaissState.init 1 (some [(2, [1])])) [1] 1 5 false (some "cat ")
    ⟨37, [(2, 1)]⟩ (by decide) (by with_unfolding_all decide)
  rcases h ((2 : Int), (1 : ℚ)) (by simp) with h2 | h2
  · exact absurd h2 (by decide)
  · exact h2 (some "cat") (by decide)

/-- C10: with include-self the seed id is prepended with score exactly 1
after the truncation to k, so at most k+1 items come back and no later
item repeats the seed id; without include-self the seed id never appears
among the items. -/
theorem includeSelf_spec (db : ImageDb) (fs : FaissState) (q : Vec)
    (imageId : Int) (kRaw : Int) (includeSelf sameCategory : Bool)
    (out : SimilarOut)
    (h : similarById db fs q imageId kRaw includeSelf sameCategory = some out) :
    (includeSelf = true →
      out.items.head? = some (imageId, 1) ∧
      out.items.length ≤ clampK kRaw + 1 ∧
      ∀ p ∈ out.items.tail, p.1 ≠ imageId) ∧
    (includeSelf = false → ∀ p ∈ out.items, p.1 ≠ imageId) := by
  unfold similarById at h
  cases hseed : dbFind db imageId with
  | none => rw [hseed] at h; exact absurd h (by simp)
  | some seedCatCol =>
    rw [hseed] at h
    simp only [Option.some.injEq] at h
    subst h
    cases includeSelf with
    | true =>
      refine ⟨fun _ => ⟨by simp, ?_, ?_⟩, by simp⟩
      · simp only [if_true, List.length_cons]
        have h1 := List.length_filter_le (fun p : Int × ℚ => decide (p.1 ≠ imageId))
          (((if sameCategory then
              (fs.search q (max (clampK kRaw * 5) (clampK kRaw + 32))).filter
                (fun p => decide ((match dbFind db p.1 with
                  | some c => catOrEmpty c
                  | none => "") = strip (catOrEmpty seedCatCol)))
            else fs.search q (max (clampK kRaw * 5) (clampK kRaw + 32))).take
              (clampK kRaw)).map (fun p => (p.1, to01 p.2)))
        rw [List.length_map] at h1
        have h2 := List.length_take_le (clampK kRaw)
          (if sameCategory then
              (fs.search q (max (clampK kRaw * 5) (clampK kRaw + 32))).filter
                (fun p => decide ((match dbFind db p.1 with
                  | some c => catOrEmpty c
                  | none => "") = strip (catOrEmpty seedCatCol)))
            else fs.search q (max (clampK kRaw * 5) (clampK kRaw + 32)))
        omega
      · intro p hp
        simp only [if_true, List.tail_cons] at hp
        exact of_decide_eq_true (List.mem_filter.mp hp).2
    | false =>
      refine ⟨by simp, fun _ => ?_⟩
      intro p hp
      simp only [Bool.false_eq_true, if_false, List.mem_map] at hp
      obtain ⟨p2, hp2, rfl⟩ := hp
      have hp3 := List.take_subset _ _ hp2
      have hp4 : p2 ∈ (fs.search q (max (clampK kRaw * 5) (clampK kRaw + 32))).filter
          (fun p => decide (p.1 ≠ imageId)) := by
        rcases sameCategory with _ | _
        · simpa using hp3
        · simp only [if_true] at hp3
          exact List.mem_of_mem_filter hp3
      exact of_decide_eq_true (List.mem_filter.mp hp4).2

/-- Witness for C10: a concrete include-self query in which the seed is
prepended in front of one candidate. -/
theorem includeSelf_spec_witness :
    (⟨37, [((1 : Int), (1 : ℚ)), (2, 1)]⟩ : SimilarOut).items.head? = some (1, 1) ∧
    (⟨37, [((1 : Int), (1 : ℚ)), (2, 1)]⟩ : SimilarOut).items.length ≤ clampK 5 + 1 ∧
    ∀ p ∈ (⟨37, [((1 : Int), (1 : ℚ)), (2, 1)]⟩ : SimilarOut).items.tail, p.1 ≠ 1 :=
  (includeSelf_spec [(1, none)] (FaissState.init 1 (some [(2, [1])])) [1] 1 5
    true false ⟨37, [(1, 1), (2, 1)]⟩ (by with_unfolding_all decide)).1 rfl

end ImageDrive
